import Mathlib

/-!
Verification of the HomeKit bridge component (aid manager, debounce,
lock adapter, thermostat adapter) against its natural-language
specification.  Python source files are shallowly embedded: dictionaries
become association lists, sets become `Finset`, the delayed store becomes
an explicit `disk`/`savePending` pair, and the random draws of
`random.randrange` become an explicit list of pre-drawn values together
with their support.
-/

/-- Lookup in an association list (embedding of Python `dict` access /
`dict.get`): returns the value of the first matching key. -/
def dictGet {κ β : Type} [DecidableEq κ] (k : κ) : List (κ × β) → Option β
  | [] => none
  | (k', v) :: rest => if k' = k then some v else dictGet k rest

/-- Removal from an association list (embedding of Python `dict.pop`):
removes the first entry with the given key. -/
def dictRemove {κ β : Type} [DecidableEq κ] (k : κ) : List (κ × β) → List (κ × β)
  | [] => []
  | (k', v) :: rest => if k' = k then rest else (k', v) :: dictRemove k rest

/-- UTF-8 encoding of a Unicode code point, byte values as naturals. -/
def utf8EncodeCodepoint (c : Nat) : List Nat :=
  if c < 0x80 then [c]
  else if c < 0x800 then [0xC0 ||| (c >>> 6), 0x80 ||| (c &&& 0x3F)]
  else if c < 0x10000 then
    [0xE0 ||| (c >>> 12), 0x80 ||| ((c >>> 6) &&& 0x3F), 0x80 ||| (c &&& 0x3F)]
  else
    [0xF0 ||| (c >>> 18), 0x80 ||| ((c >>> 12) &&& 0x3F),
     0x80 ||| ((c >>> 6) &&& 0x3F), 0x80 ||| (c &&& 0x3F)]

/-- The byte sequence of Python's `s.encode("utf-8")`. -/
def strBytes (s : String) : List Nat :=
  (s.data.map Char.toNat).flatMap utf8EncodeCodepoint

/-- Modulus of the Adler-32 checksum. -/
def MOD_ADLER : Nat := 65521

/-- `zlib.adler32` over a byte sequence (embedding of the `adler32`
calls in `aidmanager.py`). -/
def adler32 (data : List Nat) : Nat :=
  let r := data.foldl
    (fun (ab : Nat × Nat) c =>
      ((ab.1 + c) % MOD_ADLER, (ab.2 + ab.1 + c) % MOD_ADLER))
    (1, 0)
  r.2 * 65536 + r.1

/-- `fnvhash.fnv1a_32` over a byte sequence: 32-bit FNV-1a hash. -/
def fnv1a_32 (data : List Nat) : Nat :=
  data.foldl (fun h c => ((h ^^^ c) * 16777619) % 4294967296) 2166136261

/-- `INVALID_AIDS = (0, 1)` from `aidmanager.py`. -/
def INVALID_AIDS : List Nat := [0, 1]

/-- `AID_MIN = 2` from `aidmanager.py`. -/
def AID_MIN : Nat := 2

/-- `AID_MAX = 18446744073709551615` from `aidmanager.py`. -/
def AID_MAX : Nat := 18446744073709551615

/-- The set of values Python's `random.randrange(lo, hi)` can return:
the integers of `range(lo, hi)`, i.e. `lo ≤ n < hi` — the upper bound is
exclusive. -/
def randrangeSupport (lo hi : Nat) : Finset Nat := Finset.Ico lo hi

/-- `_generate_aids(unique_id, entity_id)` from `aidmanager.py`,
with the five `random.randrange(AID_MIN, AID_MAX)` draws passed in as a
pre-drawn list `randoms` (of which the generator consumes at most 5):
first the adler32 of the entity id, then the fnv1a_32 of the unique id,
then the random draws. -/
def _generate_aids (unique_id entity_id : String) (randoms : List Nat) : List Nat :=
  adler32 (strBytes entity_id) :: fnv1a_32 (strBytes unique_id) :: randoms.take 5

/-- State of `AccessoryAidStorage`: the `allocations` dict, the derived
`allocated_aids` set, plus the backing `Store` modelled explicitly as the
on-disk contents (`disk`) and whether a delayed save is scheduled
(`savePending`). -/
structure AccessoryAidStorage where
  allocations : List (String × Nat)
  allocated_aids : Finset Nat
  disk : Option (List (String × Nat))
  savePending : Bool
deriving DecidableEq

/-- `async_schedule_save`: schedules a delayed write of the current
allocations; only marks the save as pending, the disk is untouched. -/
def async_schedule_save (s : AccessoryAidStorage) : AccessoryAidStorage :=
  { s with savePending := true }

/-- Execution of the delayed save scheduled by `async_schedule_save`
(the storage helper writing `_data_to_save`, i.e. the allocations, to
disk once the delay elapses). -/
def executeSave (s : AccessoryAidStorage) : AccessoryAidStorage :=
  { s with disk := some s.allocations, savePending := false }

/-- The `async_initialize` load path of `AccessoryAidStorage`: read the
raw storage; when absent keep the empty state, otherwise set
`allocations` from disk and derive `allocated_aids` as the set of its
values. -/
def async_reload (s : AccessoryAidStorage) : AccessoryAidStorage :=
  match s.disk with
  | none => s
  | some data =>
    { s with allocations := data,
             allocated_aids := (data.map Prod.snd).toFinset }

/-- Recording a fresh allocation (the body of the successful branch of
the candidate loop in `_get_or_allocate_aid`): store the aid in the
dict, add it to the derived set, schedule a save. -/
def recordAid (unique_id : String) (aid : Nat) (s : AccessoryAidStorage) :
    AccessoryAidStorage :=
  async_schedule_save
    { s with allocations := s.allocations ++ [(unique_id, aid)],
             allocated_aids := insert aid s.allocated_aids }

/-- The candidate loop of `_get_or_allocate_aid`: skip candidates in
`INVALID_AIDS`, skip candidates already allocated, record and return the
first remaining one; `none` when the candidates are exhausted. -/
def allocLoop (unique_id : String) (s : AccessoryAidStorage) :
    List Nat → Option (Nat × AccessoryAidStorage)
  | [] => none
  | aid :: rest =>
    if aid ∈ INVALID_AIDS then allocLoop unique_id s rest
    else if aid ∈ s.allocated_aids then allocLoop unique_id s rest
    else some (aid, recordAid unique_id aid s)

/-- The `ValueError` message of `_get_or_allocate_aid`. -/
def allocFailMsg (entity_id unique_id : String) : String :=
  "Unable to generate unique aid allocation for " ++ entity_id ++
    " [" ++ unique_id ++ "]"

/-- `AccessoryAidStorage._get_or_allocate_aid`: return the stored aid if
the unique id is already allocated; otherwise run the candidate loop
over `_generate_aids`; raise (`.error`) when every candidate collides.
The state is returned alongside so that mutation (or its absence) is
explicit. -/
def _get_or_allocate_aid (randoms : List Nat) (unique_id entity_id : String)
    (s : AccessoryAidStorage) : Except String Nat × AccessoryAidStorage :=
  match dictGet unique_id s.allocations with
  | some aid => (.ok aid, s)
  | none =>
    match allocLoop unique_id s (_generate_aids unique_id entity_id randoms) with
    | some (aid, s') => (.ok aid, s')
    | none => (.error (allocFailMsg entity_id unique_id), s)

/-- An entity-registry entry (the fields of `RegistryEntry` used by
`aidmanager.py`). -/
structure RegistryEntry where
  platform : String
  domain : String
  unique_id : String
  entity_id : String
deriving DecidableEq

/-- `get_system_unique_id(entity)` from `aidmanager.py`. -/
def get_system_unique_id (entity : RegistryEntry) : String :=
  entity.platform ++ "." ++ entity.domain ++ "." ++ entity.unique_id

/-- `AccessoryAidStorage.get_or_allocate_aid_for_entity_id`: when the
registry has the entity, allocate through `_get_or_allocate_aid` with
its system unique id; otherwise log a warning and return the adler32 of
the entity id directly, without touching the table. -/
def get_or_allocate_aid_for_entity_id (registry : List (String × RegistryEntry))
    (randoms : List Nat) (entity_id : String) (s : AccessoryAidStorage) :
    Except String Nat × AccessoryAidStorage :=
  match dictGet entity_id registry with
  | some entity =>
    _get_or_allocate_aid randoms (get_system_unique_id entity) entity.entity_id s
  | none => (.ok (adler32 (strBytes entity_id)), s)

/-- `AccessoryAidStorage.delete_aid`: no-op when the unique id is not
allocated; otherwise pop the entry, discard its aid from the derived
set, and schedule a save. -/
def delete_aid (unique_id : String) (s : AccessoryAidStorage) :
    AccessoryAidStorage :=
  match dictGet unique_id s.allocations with
  | none => s
  | some aid =>
    async_schedule_save
      { s with allocations := dictRemove unique_id s.allocations,
               allocated_aids := s.allocated_aids.erase aid }

/-- The empty storage created by `AccessoryAidStorage.__init__` (before
any disk contents exist). -/
def emptyStorage : AccessoryAidStorage :=
  { allocations := [], allocated_aids := ∅, disk := none, savePending := false }

/-! ### The `debounce` decorator of `accessories.py`

One debounced setter (one key of `self.debounce`) is modelled.  Timer
handles created by `track_point_in_utc_time` get consecutive ids;
`active` holds the ids of listeners that were neither cancelled nor
fired, `pending` the stored `(remove_listener, *args)` entry, and
`calls` the hub calls actually executed by fired timers. -/

structure DebounceState (α : Type) where
  nextId : Nat
  active : List Nat
  pending : Option (Nat × α)
  calls : List α
deriving DecidableEq

/-- The fresh `self.debounce = {}` state. -/
def debounceInit (α : Type) : DebounceState α :=
  { nextId := 0, active := [], pending := none, calls := [] }

/-- The `wrapper` of `debounce`: pop the previous entry and cancel its
listener first, then register a new listener and store it with the new
arguments (cancel-then-replace, in the source's order). -/
def debounceWrite {α : Type} (v : α) (s : DebounceState α) : DebounceState α :=
  let s1 :=
    match s.pending with
    | some (tid, _) =>
      { s with pending := none, active := s.active.erase tid }
    | none => s
  { s1 with pending := some (s1.nextId, v),
            active := s1.active ++ [s1.nextId],
            nextId := s1.nextId + 1 }

/-- Expiry of the timer with handle `tid`: a cancelled listener never
runs; a live one runs `call_later_listener`, which pops the pending
entry and executes the wrapped function with the stored arguments. -/
def debounceFire {α : Type} (tid : Nat) (s : DebounceState α) : DebounceState α :=
  if tid ∈ s.active then
    let s1 := { s with active := s.active.erase tid }
    match s1.pending with
    | some (_, v) => { s1 with pending := none, calls := s1.calls ++ [v] }
    | none => s1
  else s

/-- A burst of controller writes, in arrival order. -/
def debounceRunWrites {α : Type} (vs : List α) (s : DebounceState α) :
    DebounceState α :=
  vs.foldl (fun s v => debounceWrite v s) s

/-- Let every timer handle ever registered reach its expiry time (in
registration order); cancelled ones are no-ops. -/
def debounceFireAll {α : Type} (s : DebounceState α) : DebounceState α :=
  (List.range s.nextId).foldl (fun s tid => debounceFire tid s) s

/-! ### The `Lock` adapter of `type_locks.py` -/

/-- `HASS_TO_HOMEKIT` of `type_locks.py` (value 2, Jammed, has no hass
state). -/
def HASS_TO_HOMEKIT : List (String × Nat) :=
  [("unlocked", 0), ("locked", 1), ("unknown", 3)]

/-- `HOMEKIT_TO_HASS = {c: s for s, c in HASS_TO_HOMEKIT.items()}`. -/
def HOMEKIT_TO_HASS : List (Nat × String) :=
  HASS_TO_HOMEKIT.map (fun p => (p.2, p.1))

/-- `STATE_TO_SERVICE` of `type_locks.py`. -/
def STATE_TO_SERVICE : List (String × String) :=
  [("locked", "lock"), ("unlocked", "unlock")]

/-- A hub service call issued by the lock adapter: domain, service name,
and the `params` dict (`ATTR_ENTITY_ID` always, `ATTR_CODE` when a code
is configured). -/
structure LockServiceCall where
  domain : String
  service : String
  entity_id : String
  code : Option String
deriving DecidableEq

/-- The observable state of a `Lock` accessory: the `_flag_state`
suppression flag, the two characteristic values, the configured code
(`none` when absent or falsy), the entity id, and the hub calls issued
so far. -/
structure LockState where
  flag_state : Bool
  char_current_state : Nat
  char_target_state : Nat
  code : Option String
  entity_id : String
  calls : List LockServiceCall
deriving DecidableEq

namespace Lock

/-- `Lock.set_state(value)`: set the suppression flag, translate the
protocol value to a hass state and that to a service, and issue one hub
call in the lock domain; `none` models the `KeyError` raised for a
value outside the maps. -/
def set_state (value : Nat) (l : LockState) : Option LockState :=
  let l1 := { l with flag_state := true }
  match dictGet value HOMEKIT_TO_HASS with
  | none => none
  | some hass_value =>
    match dictGet hass_value STATE_TO_SERVICE with
    | none => none
    | some service =>
      some { l1 with
        calls := l1.calls ++ [⟨"lock", service, l1.entity_id, l1.code⟩] }

/-- `Lock.update_state(new_state)`: mirror a mapped hass state into the
current-state characteristic; for locked/unlocked also mirror it into
the target-state characteristic unless the suppression flag is set, and
clear the flag. -/
def update_state (hass_state : String) (l : LockState) : LockState :=
  match dictGet hass_state HASS_TO_HOMEKIT with
  | none => l
  | some current_lock_state =>
    let l1 := { l with char_current_state := current_lock_state }
    if hass_state = "locked" ∨ hass_state = "unlocked" then
      let l2 :=
        if ¬l1.flag_state then { l1 with char_target_state := current_lock_state }
        else l1
      { l2 with flag_state := false }
    else l1

end Lock

/-! ### The threshold setters of the `Thermostat` adapter
(`type_thermostats.py`) -/

/-- `TEMP_CELSIUS` of the host platform. -/
def TEMP_CELSIUS : String := "°C"

/-- `TEMP_FAHRENHEIT` of the host platform. -/
def TEMP_FAHRENHEIT : String := "°F"

/-- Modelled from the spec: `temperature_to_states` lives in the
repository's `util.py`, which is not among the provided sources.  Per
the spec it converts a protocol-side (Celsius) temperature into the
hub's configured unit system, consistently with the reverse direction:
the identity for Celsius, the Celsius→Fahrenheit affine map otherwise.
Temperatures are modelled as rationals. -/
def temperature_to_states (temperature : ℚ) (unit : String) : ℚ :=
  if unit = TEMP_CELSIUS then temperature else temperature * 9 / 5 + 32

/-- A hub service call issued by the thermostat adapter's threshold
setters: `climate.set_temperature` with both bounds in the params. -/
structure ClimateServiceCall where
  domain : String
  service : String
  entity_id : String
  target_temp_high : ℚ
  target_temp_low : ℚ
deriving DecidableEq

/-- The observable state of a `Thermostat` accessory restricted to what
the threshold setters touch: the configured unit, the two suppression
flags, the two threshold characteristic values, the entity id, and the
hub calls issued so far. -/
structure ThermostatState where
  unit : String
  flag_coolingthresh : Bool
  flag_heatingthresh : Bool
  char_cooling_thresh_temp : ℚ
  char_heating_thresh_temp : ℚ
  entity_id : String
  calls : List ClimateServiceCall
deriving DecidableEq

namespace Thermostat

/-- The body of `Thermostat.set_cooling_threshold(value)` (the function
the `@debounce` wrapper ultimately fires): set the suppression flag,
read the heating-threshold characteristic's last known value as `low`,
and issue one `climate.set_temperature` call carrying the written value
as `target_temp_high` and `low` as `target_temp_low`, both converted to
the hub's unit. -/
def set_cooling_threshold (value : ℚ) (t : ThermostatState) : ThermostatState :=
  let low := t.char_heating_thresh_temp
  let temperature := temperature_to_states value t.unit
  { t with
    flag_coolingthresh := true,
    calls := t.calls ++
      [⟨"climate", "set_temperature", t.entity_id,
        temperature, temperature_to_states low t.unit⟩] }

/-- The body of `Thermostat.set_heating_threshold(value)` (the function
the `@debounce` wrapper ultimately fires): symmetric to
`Thermostat.set_cooling_threshold`, re-sending the cooling-threshold
characteristic's last known value as `target_temp_high`. -/
def set_heating_threshold (value : ℚ) (t : ThermostatState) : ThermostatState :=
  let high := t.char_cooling_thresh_temp
  let temperature := temperature_to_states value t.unit
  { t with
    flag_heatingthresh := true,
    calls := t.calls ++
      [⟨"climate", "set_temperature", t.entity_id,
        temperature_to_states high t.unit, temperature⟩] }

end Thermostat

/-! ### Association-list lemmas -/

theorem dictGet_mem {κ β : Type} [DecidableEq κ] (k : κ) :
    ∀ {l : List (κ × β)} {v : β}, dictGet k l = some v → (k, v) ∈ l := by
  intro l
  induction l with
  | nil => intro v h; simp [dictGet] at h
  | cons p rest ih =>
    intro v h
    obtain ⟨k', v'⟩ := p
    by_cases hk : k' = k
    · subst hk
      simp [dictGet] at h
      simp [h]
    · simp [dictGet, hk] at h
      exact List.mem_cons_of_mem _ (ih h)

theorem dictGet_eq_none_iff {κ β : Type} [DecidableEq κ] (k : κ) :
    ∀ l : List (κ × β), dictGet k l = none ↔ k ∉ l.map Prod.fst := by
  intro l
  induction l with
  | nil => simp [dictGet]
  | cons p rest ih =>
    obtain ⟨k', v'⟩ := p
    by_cases hk : k' = k
    · subst hk; simp [dictGet]
    · simp [dictGet, hk, ih, Ne.symm hk]

theorem dictRemove_sublist {κ β : Type} [DecidableEq κ] (k : κ) :
    ∀ l : List (κ × β), (dictRemove k l).Sublist l := by
  intro l
  induction l with
  | nil => simp [dictRemove]
  | cons p rest ih =>
    obtain ⟨k', v'⟩ := p
    by_cases hk : k' = k
    · simp [dictRemove, hk]
    · simpa [dictRemove, hk] using ih.cons₂ (k', v')

theorem dictGet_dictRemove_self {κ β : Type} [DecidableEq κ] (k : κ) :
    ∀ l : List (κ × β), (l.map Prod.fst).Nodup →
      dictGet k (dictRemove k l) = none := by
  intro l
  induction l with
  | nil => intro _; simp [dictRemove, dictGet]
  | cons p rest ih =>
    intro hnd
    obtain ⟨k', v'⟩ := p
    simp only [List.map_cons, List.nodup_cons] at hnd
    by_cases hk : k' = k
    · subst hk
      simp only [dictRemove, if_pos rfl]
      exact (dictGet_eq_none_iff k' rest).2 hnd.1
    · simp [dictRemove, dictGet, hk, ih hnd.2]

/-! ### Candidate-loop lemmas for `_get_or_allocate_aid` -/

theorem allocLoop_eq_none (unique_id : String) (s : AccessoryAidStorage) :
    ∀ cs : List Nat,
      (∀ c ∈ cs, c ∈ INVALID_AIDS ∨ c ∈ s.allocated_aids) →
      allocLoop unique_id s cs = none := by
  intro cs
  induction cs with
  | nil => intro _; rfl
  | cons c rest ih =>
    intro h
    have hc := h c (by simp)
    have hrest := ih (fun x hx => h x (List.mem_cons_of_mem _ hx))
    rcases hc with hc | hc
    · simp [allocLoop, hc, hrest]
    · by_cases hinv : c ∈ INVALID_AIDS <;> simp [allocLoop, hinv, hc, hrest]

theorem allocLoop_eq_some (unique_id : String) (s : AccessoryAidStorage) :
    ∀ (cs : List Nat) (aid : Nat) (s' : AccessoryAidStorage),
      allocLoop unique_id s cs = some (aid, s') →
      aid ∉ INVALID_AIDS ∧ aid ∉ s.allocated_aids ∧
        s' = recordAid unique_id aid s := by
  intro cs
  induction cs with
  | nil => intro aid s' h; simp [allocLoop] at h
  | cons c rest ih =>
    intro aid s' h
    by_cases hinv : c ∈ INVALID_AIDS
    · exact ih aid s' (by simpa [allocLoop, hinv] using h)
    · by_cases halloc : c ∈ s.allocated_aids
      · exact ih aid s' (by simpa [allocLoop, hinv, halloc] using h)
      · simp [allocLoop, hinv, halloc] at h
        obtain ⟨h1, h2⟩ := h
        subst h1
        exact ⟨hinv, halloc, h2.symm⟩

/-- **C1**: for every device identity already present in the allocation
table, `_get_or_allocate_aid` returns the previously allocated aid and
leaves the table unchanged, and it still returns that same aid after the
table is saved to disk and reloaded. -/
theorem getOrAllocate_stable (randoms randoms' : List Nat)
    (unique_id entity_id entity_id' : String) (s : AccessoryAidStorage)
    (aid : Nat) (h : dictGet unique_id s.allocations = some aid) :
    _get_or_allocate_aid randoms unique_id entity_id s = (.ok aid, s) ∧
    _get_or_allocate_aid randoms' unique_id entity_id'
        (async_reload (executeSave s)) =
      (.ok aid, async_reload (executeSave s)) := by
  constructor
  · simp [_get_or_allocate_aid, h]
  · simp [_get_or_allocate_aid, async_reload, executeSave, h]

/-- Witness for `getOrAllocate_stable` at a concrete table. -/
theorem getOrAllocate_stable_witness :
    _get_or_allocate_aid [2, 3, 4, 5, 6] "hue.light.a" "light.x"
        { allocations := [("hue.light.a", 7)], allocated_aids := {7},
          disk := none, savePending := false } =
      (.ok 7, { allocations := [("hue.light.a", 7)], allocated_aids := {7},
                disk := none, savePending := false }) ∧
    _get_or_allocate_aid [8, 9, 10, 11, 12] "hue.light.a" "light.y"
        (async_reload (executeSave
          { allocations := [("hue.light.a", 7)], allocated_aids := {7},
            disk := none, savePending := false })) =
      (.ok 7, async_reload (executeSave
        { allocations := [("hue.light.a", 7)], allocated_aids := {7},
          disk := none, savePending := false })) :=
  getOrAllocate_stable [2, 3, 4, 5, 6] [8, 9, 10, 11, 12] "hue.light.a"
    "light.x" "light.y" _ 7 (by decide)

/-- **C4**: when every generated candidate aid is reserved or already
allocated, `_get_or_allocate_aid` surfaces the `ValueError` and leaves
the table unchanged; the candidate sequence is fixed at the two hashes
plus at most five random draws, never more. -/
theorem allocation_exhaustion_raises (randoms : List Nat)
    (unique_id entity_id : String) (s : AccessoryAidStorage)
    (h0 : dictGet unique_id s.allocations = none)
    (h : ∀ c ∈ _generate_aids unique_id entity_id randoms,
      c ∈ INVALID_AIDS ∨ c ∈ s.allocated_aids) :
    _get_or_allocate_aid randoms unique_id entity_id s =
      (.error (allocFailMsg entity_id unique_id), s) ∧
    (_generate_aids unique_id entity_id randoms).length =
      2 + min 5 randoms.length := by
  refine ⟨?_, by simp [_generate_aids]; omega⟩
  simp [_get_or_allocate_aid, h0, allocLoop_eq_none unique_id s _ h]

/-- Witness for `allocation_exhaustion_raises`: `adler32("") = 1` is
reserved, `fnv1a_32("") = 2166136261` and every random draw `2` collide
with existing allocations, so allocation fails. -/
theorem allocation_exhaustion_raises_witness :
    _get_or_allocate_aid [2, 2, 2, 2, 2] "" ""
        { allocations := [("zwave.lock.l1", 2166136261), ("zwave.lock.l2", 2)],
          allocated_aids := {2166136261, 2},
          disk := none, savePending := false } =
      (.error (allocFailMsg "" ""),
        { allocations := [("zwave.lock.l1", 2166136261), ("zwave.lock.l2", 2)],
          allocated_aids := {2166136261, 2},
          disk := none, savePending := false }) ∧
    (_generate_aids "" "" [2, 2, 2, 2, 2]).length = 2 + min 5 [2, 2, 2, 2, 2].length :=
  allocation_exhaustion_raises [2, 2, 2, 2, 2] "" "" _ (by decide) (by decide)

/-- **C10**: for an entity id with no registry entry,
`get_or_allocate_aid_for_entity_id` returns the adler32 of the entity id
directly, with the storage state untouched (nothing recorded, no save
scheduled) and no check against `INVALID_AIDS` or the allocated set — in
particular `adler32("") = 1` shows this path can return a reserved aid. -/
theorem aid_fallback_unchecked (registry : List (String × RegistryEntry))
    (randoms : List Nat) (entity_id : String) (s : AccessoryAidStorage)
    (h : dictGet entity_id registry = none) :
    get_or_allocate_aid_for_entity_id registry randoms entity_id s =
      (.ok (adler32 (strBytes entity_id)), s) ∧
    adler32 (strBytes "") = 1 ∧ (1 : Nat) ∈ INVALID_AIDS := by
  refine ⟨?_, by decide, by decide⟩
  simp [get_or_allocate_aid_for_entity_id, h]

/-- Witness for `aid_fallback_unchecked` with an empty registry. -/
theorem aid_fallback_unchecked_witness :
    get_or_allocate_aid_for_entity_id [] [2, 3, 4, 5, 6] "light.kitchen"
        { allocations := [], allocated_aids := ∅,
          disk := none, savePending := false } =
      (.ok (adler32 (strBytes "light.kitchen")),
        { allocations := [], allocated_aids := ∅,
          disk := none, savePending := false }) ∧
    adler32 (strBytes "") = 1 ∧ (1 : Nat) ∈ INVALID_AIDS :=
  aid_fallback_unchecked [] [2, 3, 4, 5, 6] "light.kitchen" _ (by decide)

/-! ### Well-formedness of the allocation table -/

/-- Well-formedness of an `AccessoryAidStorage`: the dict has no
duplicate keys, the allocated aids are pairwise distinct, and the
derived `allocated_aids` set is exactly the set of the dict's values. -/
def aidsWf (s : AccessoryAidStorage) : Prop :=
  (s.allocations.map Prod.fst).Nodup ∧
  (s.allocations.map Prod.snd).Nodup ∧
  s.allocated_aids = (s.allocations.map Prod.snd).toFinset

instance (s : AccessoryAidStorage) : Decidable (aidsWf s) := by
  unfold aidsWf; infer_instance

/-- Two distinct device identities never map to the same aid. -/
def distinctAids (l : List (String × Nat)) : Prop :=
  ∀ u1 u2 a, u1 ≠ u2 →
    dictGet u1 l = some a → dictGet u2 l = some a → False

theorem distinctAids_of_nodup :
    ∀ l : List (String × Nat), (l.map Prod.snd).Nodup → distinctAids l := by
  intro l
  induction l with
  | nil => intro _ u1 u2 a _ h1 _; simp [dictGet] at h1
  | cons p rest ih =>
    intro hnd
    obtain ⟨k, v⟩ := p
    simp only [List.map_cons, List.nodup_cons] at hnd
    intro u1 u2 a hne h1 h2
    by_cases e1 : k = u1 <;> by_cases e2 : k = u2
    · exact hne (e1 ▸ e2 ▸ rfl)
    · simp only [dictGet, if_pos e1] at h1
      simp only [dictGet, if_neg e2] at h2
      obtain rfl : v = a := by simpa using h1
      exact hnd.1 (List.mem_map_of_mem Prod.snd (dictGet_mem u2 h2))
    · simp only [dictGet, if_neg e1] at h1
      simp only [dictGet, if_pos e2] at h2
      obtain rfl : v = a := by simpa using h2
      exact hnd.1 (List.mem_map_of_mem Prod.snd (dictGet_mem u1 h1))
    · simp only [dictGet, if_neg e1] at h1
      simp only [dictGet, if_neg e2] at h2
      exact ih hnd.2 u1 u2 a hne h1 h2

theorem aidsWf_recordAid (unique_id : String) (aid : Nat)
    (s : AccessoryAidStorage) (h : aidsWf s)
    (hkey : dictGet unique_id s.allocations = none)
    (haid : aid ∉ s.allocated_aids) : aidsWf (recordAid unique_id aid s) := by
  obtain ⟨hk, hv, hset⟩ := h
  have hkey' : unique_id ∉ s.allocations.map Prod.fst :=
    (dictGet_eq_none_iff unique_id s.allocations).1 hkey
  have haid' : aid ∉ s.allocations.map Prod.snd := by
    rw [hset] at haid
    simpa using haid
  refine ⟨?_, ?_, ?_⟩
  · simpa [recordAid, async_schedule_save, List.nodup_append, hk] using hkey'
  · simpa [recordAid, async_schedule_save, List.nodup_append, hv] using haid'
  · simp only [recordAid, async_schedule_save, List.map_append]
    rw [hset]
    ext x
    simp [or_comm]

theorem toFinset_values_dictRemove :
    ∀ (l : List (String × Nat)) (k : String) (a : Nat),
      (l.map Prod.snd).Nodup → dictGet k l = some a →
      ((dictRemove k l).map Prod.snd).toFinset =
        (l.map Prod.snd).toFinset.erase a := by
  intro l
  induction l with
  | nil => intro k a _ h; simp [dictGet] at h
  | cons p rest ih =>
    intro k a hnd hget
    obtain ⟨k', v⟩ := p
    simp only [List.map_cons, List.nodup_cons] at hnd
    by_cases hk : k' = k
    · simp only [dictGet, if_pos hk] at hget
      obtain rfl : v = a := by simpa using hget
      simp only [dictRemove, if_pos hk, List.map_cons, List.toFinset_cons]
      rw [Finset.erase_insert (by simpa using hnd.1)]
    · simp only [dictGet, if_neg hk] at hget
      have hva : v ≠ a := by
        intro e
        exact hnd.1
          (e ▸ List.mem_map_of_mem Prod.snd (dictGet_mem k hget))
      simp only [dictRemove, if_neg hk, List.map_cons, List.toFinset_cons]
      rw [Finset.erase_insert_of_ne hva, ih k a hnd.2 hget]

theorem aidsWf_delete (unique_id : String) (s : AccessoryAidStorage)
    (h : aidsWf s) : aidsWf (delete_aid unique_id s) := by
  obtain ⟨hk, hv, hset⟩ := h
  unfold delete_aid
  cases hget : dictGet unique_id s.allocations with
  | none => exact ⟨hk, hv, hset⟩
  | some aid =>
    have hsub := (dictRemove_sublist unique_id s.allocations).map Prod.fst
    have hsub' := (dictRemove_sublist unique_id s.allocations).map Prod.snd
    refine ⟨hk.sublist hsub, hv.sublist hsub', ?_⟩
    simp only [async_schedule_save]
    rw [hset, toFinset_values_dictRemove s.allocations unique_id aid hv hget]

/-- **C3**: for every allocation table whose aids are pairwise distinct
and whose derived allocated-aid set equals the value set of the mapping
(with the mapping a genuine dict, i.e. no duplicate keys), both
`_get_or_allocate_aid` and `delete_aid` preserve these properties, and
afterwards distinct device identities still map to distinct aids. -/
theorem allocation_invariants_preserved (randoms : List Nat)
    (unique_id entity_id del_id : String) (s : AccessoryAidStorage)
    (h : aidsWf s) :
    (aidsWf (delete_aid del_id s) ∧
      distinctAids (delete_aid del_id s).allocations) ∧
    (∀ r s', _get_or_allocate_aid randoms unique_id entity_id s = (r, s') →
      aidsWf s' ∧ distinctAids s'.allocations) := by
  constructor
  · have hw := aidsWf_delete del_id s h
    exact ⟨hw, distinctAids_of_nodup _ hw.2.1⟩
  · intro r s' hrun
    unfold _get_or_allocate_aid at hrun
    cases hget : dictGet unique_id s.allocations with
    | some aid =>
      rw [hget] at hrun
      obtain ⟨-, rfl⟩ := Prod.mk.injEq .. ▸ hrun
      exact ⟨h, distinctAids_of_nodup _ h.2.1⟩
    | none =>
      rw [hget] at hrun
      cases hloop : allocLoop unique_id s
          (_generate_aids unique_id entity_id randoms) with
      | none =>
        rw [hloop] at hrun
        obtain ⟨-, rfl⟩ := Prod.mk.injEq .. ▸ hrun
        exact ⟨h, distinctAids_of_nodup _ h.2.1⟩
      | some p =>
        obtain ⟨aid, s''⟩ := p
        rw [hloop] at hrun
        obtain ⟨-, rfl⟩ := Prod.mk.injEq .. ▸ hrun
        obtain ⟨-, haid, rfl⟩ := allocLoop_eq_some unique_id s _ aid s'' hloop
        have hw := aidsWf_recordAid unique_id aid s h hget haid
        exact ⟨hw, distinctAids_of_nodup _ hw.2.1⟩

/-- Witness for `allocation_invariants_preserved` at a concrete
well-formed table. -/
theorem allocation_invariants_preserved_witness :
    (aidsWf (delete_aid "hue.light.a"
        { allocations := [("hue.light.a", 7), ("hue.light.b", 9)],
          allocated_aids := {7, 9}, disk := none, savePending := false }) ∧
      distinctAids (delete_aid "hue.light.a"
        { allocations := [("hue.light.a", 7), ("hue.light.b", 9)],
          allocated_aids := {7, 9}, disk := none, savePending := false }).allocations) ∧
    (∀ r s', _get_or_allocate_aid [2, 3, 4, 5, 6] "hue.light.c" "light.c"
        { allocations := [("hue.light.a", 7), ("hue.light.b", 9)],
          allocated_aids := {7, 9}, disk := none, savePending := false } = (r, s') →
      aidsWf s' ∧ distinctAids s'.allocations) :=
  allocation_invariants_preserved [2, 3, 4, 5, 6] "hue.light.c" "light.c"
    "hue.light.a" _ (by decide)

/-! ### C5: deletion vs. delayed persistence -/

/-- A well-formed storage whose contents have been saved to disk:
`"zwave.lock.dev"` holds aid 5, and the two hash candidates of the
identity `"u2"` / entity id `"e2"` (`adler32("e2") = 16646296`,
`fnv1a_32("u2") = 88254854`) are held by two other devices. -/
def savedStorage : AccessoryAidStorage :=
  { allocations := [("zwave.lock.dev", 5), ("hue.light.x", 16646296),
      ("hue.light.y", 88254854)],
    allocated_aids := {5, 16646296, 88254854},
    disk := some [("zwave.lock.dev", 5), ("hue.light.x", 16646296),
      ("hue.light.y", 88254854)],
    savePending := false }

/-- **C5 counterexample**: `delete_aid` frees the aid *before* any
persistence happens.  After deleting `"zwave.lock.dev"` the aid 5 is
already gone from the in-memory allocated set while the on-disk table
still records it (the save is merely pending), and a subsequent
`_get_or_allocate_aid` re-allocates 5 to a different device identity
before the on-disk removal was confirmed — contradicting the claim that
the aid is freed only after persistence confirms the removal. -/
theorem delete_reuse_before_save :
    5 ∉ (delete_aid "zwave.lock.dev" savedStorage).allocated_aids ∧
    (delete_aid "zwave.lock.dev" savedStorage).disk =
      some [("zwave.lock.dev", 5), ("hue.light.x", 16646296),
        ("hue.light.y", 88254854)] ∧
    (delete_aid "zwave.lock.dev" savedStorage).savePending = true ∧
    (_get_or_allocate_aid [5, 6, 7, 8, 9] "u2" "e2"
        (delete_aid "zwave.lock.dev" savedStorage)).1.toOption = some 5 := by
  decide

/-- **C5 amended**: `delete_aid` removes the identity's entry and frees
its aid for reuse immediately in memory, before persistence: it only
schedules a delayed save (the disk is untouched at that point), and the
on-disk removal happens when the scheduled save executes. -/
theorem delete_frees_in_memory (unique_id : String) (aid : Nat)
    (s : AccessoryAidStorage)
    (hkeys : (s.allocations.map Prod.fst).Nodup)
    (h : dictGet unique_id s.allocations = some aid) :
    dictGet unique_id (delete_aid unique_id s).allocations = none ∧
    aid ∉ (delete_aid unique_id s).allocated_aids ∧
    (delete_aid unique_id s).disk = s.disk ∧
    (delete_aid unique_id s).savePending = true ∧
    (executeSave (delete_aid unique_id s)).disk =
      some (delete_aid unique_id s).allocations := by
  refine ⟨?_, ?_, ?_, ?_, ?_⟩ <;>
    simp [delete_aid, h, async_schedule_save, executeSave,
      dictGet_dictRemove_self unique_id s.allocations hkeys]

/-- Witness for `delete_frees_in_memory` at a concrete table. -/
theorem delete_frees_in_memory_witness :
    dictGet "zwave.lock.dev" (delete_aid "zwave.lock.dev" savedStorage).allocations
        = none ∧
    5 ∉ (delete_aid "zwave.lock.dev" savedStorage).allocated_aids ∧
    (delete_aid "zwave.lock.dev" savedStorage).disk = savedStorage.disk ∧
    (delete_aid "zwave.lock.dev" savedStorage).savePending = true ∧
    (executeSave (delete_aid "zwave.lock.dev" savedStorage)).disk =
      some (delete_aid "zwave.lock.dev" savedStorage).allocations :=
  delete_frees_in_memory "zwave.lock.dev" 5 savedStorage (by decide) (by decide)

/-! ### C2: candidate order and the random interval -/

/-- The acceptance test of the candidate loop as a boolean predicate:
a candidate wins when it is neither reserved nor already allocated. -/
def aidFree (s : AccessoryAidStorage) (aid : Nat) : Bool :=
  decide (aid ∉ INVALID_AIDS) && decide (aid ∉ s.allocated_aids)

theorem allocLoop_eq_find (unique_id : String) (s : AccessoryAidStorage) :
    ∀ (cs : List Nat) (aid : Nat), cs.find? (aidFree s) = some aid →
      allocLoop unique_id s cs = some (aid, recordAid unique_id aid s) := by
  intro cs
  induction cs with
  | nil => intro aid h; simp at h
  | cons c rest ih =>
    intro aid h
    by_cases hfree : aidFree s c
    · rw [List.find?_cons_of_pos _ hfree] at h
      obtain rfl : c = aid := by simpa using h
      have hc := hfree
      simp only [aidFree, Bool.and_eq_true, decide_eq_true_eq] at hc
      simp [allocLoop, hc.1, hc.2]
    · rw [List.find?_cons_of_neg _ hfree] at h
      have hc : c ∈ INVALID_AIDS ∨ c ∈ s.allocated_aids := by
        simp only [aidFree, Bool.and_eq_true, decide_eq_true_eq] at hfree
        tauto
      rcases hc with hc | hc
      · simp [allocLoop, hc, ih aid h]
      · by_cases hinv : c ∈ INVALID_AIDS <;> simp [allocLoop, hinv, hc, ih aid h]

/-- **C2 counterexample**: the claim's random interval is wrong at its
upper end.  The code draws with `random.randrange(AID_MIN, AID_MAX)`,
whose upper bound is exclusive, so the value `2^64 − 1` — which the
claim's closed interval `[2, 2^64−1]` contains — can never be drawn. -/
theorem randrange_upper_bound_exclusive :
    AID_MAX = 2 ^ 64 - 1 ∧
    (2 ^ 64 - 1) ∈ Finset.Icc AID_MIN (2 ^ 64 - 1) ∧
    (2 ^ 64 - 1) ∉ randrangeSupport AID_MIN AID_MAX := by
  refine ⟨by norm_num [AID_MAX], ?_, ?_⟩
  · rw [Finset.mem_Icc]
    norm_num [AID_MIN]
  · rw [randrangeSupport, Finset.mem_Ico]
    norm_num [AID_MIN, AID_MAX]

/-- **C2 amended**: for a device with a stable identity (and not yet in
the table), the candidate aids are tried in this fixed order: (1) adler32
of the entity's textual id, (2) fnv1a_32 of the stable device identity
string, (3) up to 5 uniformly random integers drawn from the half-open
interval `[2, 2^64−1)` — equivalently the closed interval `[2, 2^64−2]`,
since `random.randrange` excludes its upper bound; the first candidate
that is neither in `{0,1}` nor already in the allocated-aid set is
recorded in the table and returned. -/
theorem aid_candidate_order (randoms : List Nat) (unique_id entity_id : String)
    (s : AccessoryAidStorage) (aid : Nat)
    (hlen : randoms.length = 5)
    (_hrange : ∀ r ∈ randoms, r ∈ randrangeSupport AID_MIN AID_MAX)
    (hnew : dictGet unique_id s.allocations = none)
    (hfind : (_generate_aids unique_id entity_id randoms).find? (aidFree s) =
      some aid) :
    _generate_aids unique_id entity_id randoms =
      adler32 (strBytes entity_id) :: fnv1a_32 (strBytes unique_id) :: randoms ∧
    _get_or_allocate_aid randoms unique_id entity_id s =
      (.ok aid, recordAid unique_id aid s) := by
  constructor
  · simp [_generate_aids, List.take_of_length_le (le_of_eq hlen)]
  · simp [_get_or_allocate_aid, hnew, allocLoop_eq_find unique_id s _ aid hfind]

/-- Witness for `aid_candidate_order`: on an empty table the very first
candidate, `adler32("e2") = 16646296`, is free and gets allocated. -/
theorem aid_candidate_order_witness :
    _generate_aids "u2" "e2" [2, 3, 4, 5, 6] =
      adler32 (strBytes "e2") :: fnv1a_32 (strBytes "u2") :: [2, 3, 4, 5, 6] ∧
    _get_or_allocate_aid [2, 3, 4, 5, 6] "u2" "e2"
        { allocations := [], allocated_aids := ∅,
          disk := none, savePending := false } =
      (.ok 16646296, recordAid "u2" 16646296
        { allocations := [], allocated_aids := ∅,
          disk := none, savePending := false }) :=
  aid_candidate_order [2, 3, 4, 5, 6] "u2" "e2" _ 16646296 (by decide)
    (by
      intro r hr
      simp only [randrangeSupport, Finset.mem_Ico, AID_MIN, AID_MAX]
      fin_cases hr <;> norm_num)
    (by decide) (by decide)

/-! ### C6: debounce coalescing -/

theorem getLastD_cons_eq_getLast {α : Type} :
    ∀ (l : List α) (a : α) (h : (a :: l) ≠ []),
      l.getLastD a = (a :: l).getLast h := by
  intro l
  induction l with
  | nil => intro a h; rfl
  | cons b bs ih =>
    intro a h
    rw [List.getLastD_cons, ih b (by simp)]
    exact (List.getLast_cons (by simp)).symm

theorem debounceRunWrites_from_pending {α : Type} :
    ∀ (vs : List α) (n t : Nat) (w : α) (c : List α),
      debounceRunWrites vs
          { nextId := n, active := [t], pending := some (t, w), calls := c } =
        if vs.isEmpty then
          { nextId := n, active := [t], pending := some (t, w), calls := c }
        else
          { nextId := n + vs.length, active := [n + vs.length - 1],
            pending := some (n + vs.length - 1, vs.getLastD w), calls := c } := by
  intro vs
  induction vs with
  | nil => intro n t w c; simp [debounceRunWrites]
  | cons v rest ih =>
    intro n t w c
    have hw : debounceWrite v
        { nextId := n, active := [t], pending := some (t, w), calls := c } =
        { nextId := n + 1, active := [n], pending := some (n, v), calls := c } := by
      simp [debounceWrite, List.erase_cons_head]
    have hstep : debounceRunWrites (v :: rest)
        { nextId := n, active := [t], pending := some (t, w), calls := c } =
        debounceRunWrites rest
          { nextId := n + 1, active := [n], pending := some (n, v), calls := c } := by
      simp only [debounceRunWrites, List.foldl_cons, hw]
    rw [hstep, ih (n + 1) n v c]
    cases rest with
    | nil => simp
    | cons r rs =>
      rw [if_neg (by simp), if_neg (by simp)]
      have e : n + 1 + (r :: rs).length - 1 = n + (v :: r :: rs).length - 1 := by
        simp only [List.length_cons]; omega
      have e' : n + 1 + (r :: rs).length = n + (v :: r :: rs).length := by
        simp only [List.length_cons]; omega
      rw [e, e']
      simp only [List.getLastD_eq_getLast?]
      cases hgl : (r :: rs).getLast? with
      | none => exact absurd hgl (by simp)
      | some x => simp [hgl]

theorem debounceFire_fold_skip {α : Type} :
    ∀ (ts : List Nat) (s : DebounceState α),
      (∀ x ∈ ts, x ∉ s.active) →
      ts.foldl (fun s tid => debounceFire tid s) s = s := by
  intro ts
  induction ts with
  | nil => intro s _; rfl
  | cons x rest ih =>
    intro s hne
    have hx : x ∉ s.active := hne x (by simp)
    have hfx : debounceFire x s = s := by simp [debounceFire, hx]
    simp only [List.foldl_cons, hfx]
    exact ih s (fun y hy => hne y (by simp [hy]))

/-- **C6**: a burst of `N ≥ 1` controller writes within the delay window
(no timer fires in between), followed by the expiry of every timer
handle ever registered, executes exactly one hub call, carrying the last
written value; moreover after the burst at most one listener is live, so
two pending writes can never fire for the same key. -/
theorem debounce_coalesces {α : Type} (vs : List α) (hne : vs ≠ []) :
    (debounceFireAll (debounceRunWrites vs (debounceInit α))).calls =
      [vs.getLast hne] ∧
    (debounceRunWrites vs (debounceInit α)).active.length ≤ 1 := by
  obtain ⟨v, rest, rfl⟩ := List.exists_cons_of_ne_nil hne
  have h1 : debounceWrite v (debounceInit α) =
      { nextId := 1, active := [0], pending := some (0, v), calls := [] } := by
    simp [debounceWrite, debounceInit]
  have h2 : debounceRunWrites (v :: rest) (debounceInit α) =
      debounceRunWrites rest
        { nextId := 1, active := [0], pending := some (0, v), calls := [] } := by
    simp only [debounceRunWrites, List.foldl_cons, h1]
  rw [h2, debounceRunWrites_from_pending rest 1 0 v []]
  cases rest with
  | nil =>
    constructor
    · simp [debounceFireAll, debounceFire, List.range_succ]
    · simp
  | cons r rs =>
    rw [if_neg (by simp)]
    set N := 1 + (r :: rs).length with hN
    have hN1 : N = (N - 1) + 1 := by omega
    constructor
    · show (debounceFireAll
        { nextId := N, active := [N - 1],
          pending := some (N - 1, (r :: rs).getLastD v), calls := [] }).calls = _
      rw [debounceFireAll]
      have hrange : List.range N = List.range (N - 1) ++ [N - 1] := by
        rw [hN1]; simp [List.range_succ]
      rw [hrange, List.foldl_append]
      rw [debounceFire_fold_skip (List.range (N - 1))
        { nextId := N, active := [N - 1],
          pending := some (N - 1, (r :: rs).getLastD v), calls := [] }
        (by
          intro x hx
          simp only [List.mem_range] at hx
          simp only [List.mem_singleton]
          omega)]
      simp only [List.foldl_cons, List.foldl_nil, debounceFire,
        List.mem_singleton, if_pos rfl]
      rw [List.erase_cons_head]
      have hgl := List.getLast?_eq_getLast_of_ne_nil
        (l := r :: rs) (by simp)
      simp [hgl]
    · simp

/-- Witness for `debounce_coalesces`: three rapid writes produce exactly
the one call carrying the last value. -/
theorem debounce_coalesces_witness :
    (debounceFireAll (debounceRunWrites [1, 2, 3] (debounceInit ℕ))).calls =
      [([1, 2, 3] : List ℕ).getLast (by simp)] ∧
    (debounceRunWrites [1, 2, 3] (debounceInit ℕ)).active.length ≤ 1 :=
  debounce_coalesces [1, 2, 3] (by simp)

/-! ### C7 and C8: the lock adapter -/

/-- **C7**: a controller write through `Lock.set_state` sets the
suppression flag, so when the hub echoes exactly the written value back
into `Lock.update_state`, the target-state characteristic is not written
again and the flag is cleared — no second write-back loop. -/
theorem lock_feedback_suppression (l l1 : LockState) (value : Nat)
    (hass_state : String)
    (hecho : dictGet value HOMEKIT_TO_HASS = some hass_state)
    (hset : Lock.set_state value l = some l1) :
    (Lock.update_state hass_state l1).char_target_state =
      l1.char_target_state ∧
    (Lock.update_state hass_state l1).flag_state = false := by
  simp only [Lock.set_state, hecho] at hset
  by_cases hl : hass_state = "locked"
  · subst hl
    rw [show dictGet "locked" STATE_TO_SERVICE = some "lock" from by decide]
      at hset
    simp only [Option.some.injEq] at hset
    subst hset
    simp [Lock.update_state,
      show dictGet "locked" HASS_TO_HOMEKIT = some 1 from by decide]
  · by_cases hu : hass_state = "unlocked"
    · subst hu
      rw [show dictGet "unlocked" STATE_TO_SERVICE = some "unlock" from by decide]
        at hset
      simp only [Option.some.injEq] at hset
      subst hset
      simp [Lock.update_state,
        show dictGet "unlocked" HASS_TO_HOMEKIT = some 0 from by decide]
    · rw [show dictGet hass_state STATE_TO_SERVICE = none from by
        simp [STATE_TO_SERVICE, dictGet, Ne.symm hl, Ne.symm hu]] at hset
      simp at hset

/-- A concrete lock accessory used by the witnesses: unknown current
state, target `locked`, no configured code, no calls issued yet. -/
def sampleLock : LockState :=
  { flag_state := false, char_current_state := 3, char_target_state := 1,
    code := none, entity_id := "lock.front_door", calls := [] }

/-- Witness for `lock_feedback_suppression`: a write of protocol value 0
(`unlock`) followed by the hub's `"unlocked"` echo. -/
theorem lock_feedback_suppression_witness :
    (Lock.update_state "unlocked"
        { sampleLock with
          flag_state := true
          calls := [⟨"lock", "unlock", "lock.front_door", none⟩] }).char_target_state =
      ({ sampleLock with
         flag_state := true
         calls := [⟨"lock", "unlock", "lock.front_door", none⟩] } :
        LockState).char_target_state ∧
    (Lock.update_state "unlocked"
        { sampleLock with
          flag_state := true
          calls := [⟨"lock", "unlock", "lock.front_door", none⟩] }).flag_state =
      false :=
  lock_feedback_suppression sampleLock _ 0 "unlocked" (by decide) (by decide)

/-- **C8**: `Lock.update_state` on hub state `"locked"` sets the
current-state characteristic to protocol value 1, and a controller write
of protocol value 0 through `Lock.set_state` issues exactly one hub call
`unlock` in the `lock` domain for the entity, carrying the configured
code when present. -/
theorem lock_state_scenario (l : LockState) :
    (Lock.update_state "locked" l).char_current_state = 1 ∧
    Lock.set_state 0 l =
      some { l with
             flag_state := true
             calls := l.calls ++ [⟨"lock", "unlock", l.entity_id, l.code⟩] } := by
  constructor
  · by_cases hf : l.flag_state <;>
      simp [Lock.update_state, hf,
        show dictGet "locked" HASS_TO_HOMEKIT = some 1 from by decide]
  · simp [Lock.set_state,
      show dictGet 0 HOMEKIT_TO_HASS = some "unlocked" from by decide,
      show dictGet "unlocked" STATE_TO_SERVICE = some "unlock" from by decide]

/-! ### C9: thermostat threshold pairing -/

/-- A concrete thermostat accessory in Celsius with heating threshold
18.0 and cooling threshold 23.0. -/
def sampleThermostat : ThermostatState :=
  { unit := TEMP_CELSIUS, flag_coolingthresh := false,
    flag_heatingthresh := false, char_cooling_thresh_temp := 23,
    char_heating_thresh_temp := 18, entity_id := "climate.living_room",
    calls := [] }

/-- **C9**: a write to one threshold bound issues exactly one
`climate.set_temperature` call carrying both bounds — the written value
for the changed bound and the other bound characteristic's last known
value, each converted to the hub's unit system; concretely, setting the
cooling threshold to 24.0 while the heating threshold is 18.0 (Celsius
hub) yields one call with `target_temp_high = 24.0` and
`target_temp_low = 18.0`. -/
theorem thermostat_threshold_pair (t : ThermostatState) (value : ℚ) :
    (Thermostat.set_cooling_threshold value t).calls =
      t.calls ++ [⟨"climate", "set_temperature", t.entity_id,
        temperature_to_states value t.unit,
        temperature_to_states t.char_heating_thresh_temp t.unit⟩] ∧
    (Thermostat.set_heating_threshold value t).calls =
      t.calls ++ [⟨"climate", "set_temperature", t.entity_id,
        temperature_to_states t.char_cooling_thresh_temp t.unit,
        temperature_to_states value t.unit⟩] ∧
    (Thermostat.set_cooling_threshold 24 sampleThermostat).calls =
      [⟨"climate", "set_temperature", "climate.living_room", 24, 18⟩] := by
  refine ⟨rfl, rfl, ?_⟩
  simp [Thermostat.set_cooling_threshold, sampleThermostat,
    temperature_to_states]
